import Mathlib

/-!
Verification development for the ATS Resume Tracker browser extension
(repository pratik2542/ATS).

Modelling conventions (shallow embedding of the TypeScript sources):

* JavaScript strings are modelled as `List Char` (abbreviated `Str`); string
  length, `slice`, concatenation and equality then coincide with the JS
  operations on UTF-16 code units.
* The DOCX document (`word/document.xml`) is modelled at the XML level that the
  code actually manipulates: a document is the list of its `w:p` paragraph
  elements in document order, and a paragraph carries the list of its `w:t`
  text nodes.  Everything about a node other than the text content that the
  code reads/writes via `textContent` is kept opaque in an `attrs` field, so
  that "only the text changed" is expressible.  The base64/zip round trip of
  `patchDocxWithParagraphs` is the identity on this level and is not modelled.
* JavaScript numbers appearing in score arithmetic are modelled as rationals
  (`ℚ`); `NaN`/non-finite values are modelled by `Option` (`none` = not
  finite).  `Math.round` is Mathlib's `round` (both are ⌊x + 1/2⌋).
* Effectful chrome-storage / Firestore code is modelled by explicit state
  passing; a thrown exception is an `Option Str` error component.
-/

/-- JavaScript strings, modelled as lists of UTF-16 code units. -/
abbrev Str := List Char

/-- JavaScript `s.slice(start, stop)` for `0 ≤ start ≤ stop` (the only way the
sources call it): the code units in positions `[start, stop)`. -/
def jsSlice (s : Str) (start stop : Nat) : Str := (s.take stop).drop start

/-- A `w:t` text node of the DOCX XML.  `attrs` stands for the serialized
attributes and any other identity of the element; `text` is `textContent`
(`textContent || ''` — a `null` content reads as the empty string, so `Str`
suffices). -/
structure TNode where
  attrs : Str
  text : Str
deriving DecidableEq

/-- A `w:p` paragraph element.  `attrs` stands for all paragraph content other
than its `w:t` descendants (runs, properties, ...); `tnodes` are the `w:t`
descendants in document order, as returned by `p.getElementsByTagName('w:t')`. -/
structure Paragraph where
  attrs : Str
  tnodes : List TNode
deriving DecidableEq

/-- The `for` loop of `distributeAcrossNodes` (src/src/background/background.ts
lines 354-365), with the running `offset` made explicit.  JS `take` may be
negative there only when `text.length - offset < 0`, in which case the JS code
writes `''` and leaves `offset` unchanged — exactly what truncated `Nat`
subtraction yields, so `Nat` arithmetic is faithful. -/
def distLoop (text : Str) : Nat → List TNode → List TNode
  | _, [] => []
  | offset, [n] =>
    let tk := text.length - offset
    let part := if 0 < tk then jsSlice text offset (offset + tk) else []
    [{ n with text := part }]
  | offset, n :: m :: rest =>
    let tk := min n.text.length (text.length - offset)
    let part := if 0 < tk then jsSlice text offset (offset + tk) else []
    if text.length ≤ offset + tk then
      { n with text := part } :: (m :: rest).map (fun o => { o with text := [] })
    else
      { n with text := part } :: distLoop text (offset + tk) (m :: rest)

/-- `distributeAcrossNodes` (src/src/background/background.ts lines 342-366):
splits `text` across the given `w:t` nodes, giving node `i` as many code units
as its original text had, the remainder going to the last node; if no node had
any text, everything goes to the first node. -/
def distributeAcrossNodes (text : Str) (nodes : List TNode) : List TNode :=
  match nodes with
  | [] => []
  | n :: rest =>
    let totalOriginal := ((n :: rest).map (fun o => o.text.length)).sum
    if totalOriginal = 0 then
      { n with text := text } :: rest.map (fun o => { o with text := [] })
    else
      distLoop text 0 (n :: rest)

/-- The text of one paragraph as both extractors compute it:
`tNodes.map(t => t.textContent || '').join('')`. -/
def paragraphText (p : Paragraph) : Str := (p.tnodes.map TNode.text).flatten

/-- `extractParagraphsFromDocxBase64` (src/src/background/background.ts lines
326-340), at the XML level: one joined string per `w:p` element. -/
def extractParagraphsFromDocxBase64 (doc : List Paragraph) : List Str :=
  doc.map paragraphText

/-- The paragraph-count normalization of `patchDocxWithParagraphs` (lines
380-382): `slice(0, count)` then pad with `''` up to `count`. -/
def normalizeParagraphs (count : Nat) (ps : List Str) : List Str :=
  let t := ps.take count
  t ++ List.replicate (count - t.length) []

/-- `patchDocxWithParagraphs` (src/src/background/background.ts lines 368-404),
at the XML level: normalize the updated paragraph list to the document's
paragraph count, then rewrite the `w:t` texts of every paragraph that has at
least one `w:t` node (paragraphs without `w:t` are skipped). -/
def patchDocxWithParagraphs (doc : List Paragraph) (updatedParagraphs : List Str) :
    List Paragraph :=
  let count := doc.length
  let normalized := normalizeParagraphs count updatedParagraphs
  (doc.zip normalized).map fun pq =>
    if pq.1.tnodes.isEmpty then pq.1
    else { pq.1 with tnodes := distributeAcrossNodes pq.2 pq.1.tnodes }

example :
    distributeAcrossNodes "hello world".toList
      [⟨"a".toList, "he".toList⟩, ⟨"b".toList, "xyz".toList⟩] =
      [⟨"a".toList, "he".toList⟩, ⟨"b".toList, "llo world".toList⟩] := by decide

example :
    ((distributeAcrossNodes "hi".toList
      [⟨"a".toList, "one".toList⟩, ⟨"b".toList, "two".toList⟩]).map TNode.text).flatten
      = "hi".toList := by decide

example :
    ((distributeAcrossNodes "".toList
      [⟨"a".toList, "".toList⟩, ⟨"b".toList, "".toList⟩]).map TNode.text).flatten
      = "".toList := by decide

lemma cleared_texts_flatten (xs : List TNode) :
    ((xs.map fun o => { o with text := [] }).map TNode.text).flatten = ([] : Str) := by
  induction xs <;> simp_all

lemma cleared_map_attrs (xs : List TNode) :
    (xs.map fun o => { o with text := ([] : Str) }).map TNode.attrs = xs.map TNode.attrs := by
  induction xs <;> simp_all

lemma drop_take_append (text : Str) (offset k : Nat) (h1 : offset ≤ k)
    (h2 : offset ≤ text.length) :
    (text.take k).drop offset ++ text.drop k = text.drop offset := by
  conv_rhs => rw [← List.take_append_drop k text]
  rw [List.drop_append_eq_append_drop, List.length_take]
  have h3 : offset - min k text.length = 0 := by omega
  rw [h3, List.drop_zero]

lemma jsSlice_to_end (text : Str) (offset : Nat) :
    jsSlice text offset text.length = text.drop offset := by
  simp [jsSlice, List.take_length]

/-- The loop of `distributeAcrossNodes` writes, in order, exactly the suffix of
`text` starting at `offset` into the nodes. -/
lemma distLoop_flatten (text : Str) :
    ∀ (nodes : List TNode) (offset : Nat), nodes ≠ [] →
      ((distLoop text offset nodes).map TNode.text).flatten = text.drop offset := by
  intro nodes
  induction nodes with
  | nil => intro offset h; exact absurd rfl h
  | cons n tail ih =>
    intro offset _
    cases tail with
    | nil =>
      by_cases hlt : offset < text.length
      · have htk : 0 < text.length - offset := by omega
        have hoff : offset + (text.length - offset) = text.length := by omega
        simp only [distLoop, htk, if_pos, hoff, jsSlice_to_end, List.map_cons, List.map_nil,
          List.flatten_cons, List.flatten_nil, List.append_nil]
      · have htk : ¬ 0 < text.length - offset := by omega
        have hdrop : text.drop offset = [] := List.drop_eq_nil_of_le (by omega)
        simp only [distLoop, htk, if_neg, not_false_iff, List.map_cons, List.map_nil,
          List.flatten_cons, List.flatten_nil, List.append_nil, hdrop]
    | cons m rest =>
      by_cases hbr : text.length ≤ offset + min n.text.length (text.length - offset)
      · -- the remainder of the text fits; the rest of the nodes are cleared
        simp only [distLoop, hbr, if_pos]
        rw [List.map_cons, List.flatten_cons, cleared_texts_flatten, List.append_nil]
        by_cases htk : 0 < min n.text.length (text.length - offset)
        · have h2 : offset ≤ text.length := by omega
          have heq : offset + min n.text.length (text.length - offset) = text.length := by
            omega
          simp only [htk, if_pos, heq, jsSlice_to_end]
        · have hdrop : text.drop offset = [] := List.drop_eq_nil_of_le (by omega)
          simp only [htk, if_neg, not_false_iff, hdrop]
      · -- recurse on the remaining nodes
        simp only [distLoop, hbr, if_neg, not_false_iff]
        rw [List.map_cons, List.flatten_cons, ih (offset + min n.text.length (text.length - offset)) (by simp)]
        by_cases htk : 0 < min n.text.length (text.length - offset)
        · have h1 : offset ≤ offset + min n.text.length (text.length - offset) := by omega
          have h2 : offset ≤ text.length := by omega
          simp only [htk, if_pos, jsSlice]
          exact drop_take_append text offset _ h1 h2
        · have h0 : min n.text.length (text.length - offset) = 0 := by omega
          simp only [htk, if_neg, not_false_iff, h0, Nat.add_zero, List.nil_append]
          simp

/-- Core text-preservation fact about `distributeAcrossNodes` (shared by the
round-trip theorems): re-joining the node texts gives back the distributed
text, for any non-empty node list. -/
lemma distributeAcrossNodes_flatten (text : Str) (nodes : List TNode) (h : nodes ≠ []) :
    ((distributeAcrossNodes text nodes).map TNode.text).flatten = text := by
  cases nodes with
  | nil => exact absurd rfl h
  | cons n rest =>
    simp only [distributeAcrossNodes]
    split
    · simp only [List.map_cons, List.flatten_cons, cleared_texts_flatten, List.append_nil]
    · simpa using distLoop_flatten text (n :: rest) 0 (by simp)

lemma distLoop_map_attrs (text : Str) :
    ∀ (nodes : List TNode) (offset : Nat),
      (distLoop text offset nodes).map TNode.attrs = nodes.map TNode.attrs := by
  intro nodes
  induction nodes with
  | nil => intro offset; rfl
  | cons n tail ih =>
    intro offset
    cases tail with
    | nil => simp [distLoop]
    | cons m rest =>
      by_cases hbr : text.length ≤ offset + min n.text.length (text.length - offset)
      · simp only [distLoop, hbr, if_pos, List.map_cons, cleared_map_attrs]
      · simp only [distLoop, hbr, if_neg, not_false_iff, List.map_cons,
          ih (offset + min n.text.length (text.length - offset))]

/-- `distributeAcrossNodes` never adds, removes or reorders nodes: the
attribute (identity) projection of the node list is untouched. -/
lemma distributeAcrossNodes_map_attrs (text : Str) (nodes : List TNode) :
    (distributeAcrossNodes text nodes).map TNode.attrs = nodes.map TNode.attrs := by
  cases nodes with
  | nil => rfl
  | cons n rest =>
    simp only [distributeAcrossNodes]
    split
    · simp only [List.map_cons, cleared_map_attrs]
    · simp only [distLoop_map_attrs, List.map_cons]

lemma normalizeParagraphs_length (count : Nat) (ps : List Str) :
    (normalizeParagraphs count ps).length = count := by
  simp only [normalizeParagraphs, List.length_append, List.length_replicate, List.length_take]
  omega

lemma extract_patch_zip (doc : List Paragraph) (ns : List Str)
    (hlen : doc.length = ns.length) (hall : ∀ p ∈ doc, p.tnodes ≠ []) :
    ((doc.zip ns).map fun pq =>
        if pq.1.tnodes.isEmpty then pq.1
        else { pq.1 with tnodes := distributeAcrossNodes pq.2 pq.1.tnodes }).map paragraphText
      = ns := by
  induction doc generalizing ns with
  | nil =>
    cases ns with
    | nil => rfl
    | cons t ts => simp at hlen
  | cons p doc ih =>
    cases ns with
    | nil => simp at hlen
    | cons t ns =>
      have hp : p.tnodes ≠ [] := hall p (by simp)
      simp only [List.zip_cons_cons, List.map_cons]
      rw [ih ns (by simpa using hlen) (fun q hq => hall q (by simp [hq]))]
      congr 1
      cases hpt : p.tnodes with
      | nil => exact absurd hpt hp
      | cons a l =>
        simp only [hpt, List.isEmpty_cons, Bool.false_eq_true, if_false]
        simpa [paragraphText, hpt] using distributeAcrossNodes_flatten t p.tnodes hp

/-- C1: for every DOCX document in which every `w:p` paragraph element contains
at least one `w:t` text node, and every list of newline-free paragraph strings,
extracting the paragraphs of the document produced by `patchDocxWithParagraphs`
yields exactly the updated list truncated to the document's paragraph count and
padded at the end with empty strings (`normalizeParagraphs`). -/
theorem extract_after_patch (doc : List Paragraph) (ps : List Str)
    (hall : ∀ p ∈ doc, p.tnodes ≠ [])
    (hnl : ∀ s ∈ ps, '\n' ∉ s) :
    extractParagraphsFromDocxBase64 (patchDocxWithParagraphs doc ps) =
      normalizeParagraphs doc.length ps := by
  have hlen : doc.length = (normalizeParagraphs doc.length ps).length :=
    (normalizeParagraphs_length doc.length ps).symm
  simpa [extractParagraphsFromDocxBase64, patchDocxWithParagraphs] using
    extract_patch_zip doc (normalizeParagraphs doc.length ps) hlen hall

/-- A concrete two-paragraph document, every paragraph holding `w:t` nodes. -/
def docW : List Paragraph :=
  [⟨"p1".toList, [⟨"r1".toList, "Hello".toList⟩, ⟨"r2".toList, " world".toList⟩]⟩,
   ⟨"p2".toList, [⟨"r3".toList, "Bye".toList⟩]⟩]

/-- A concrete update list, longer than the document (the tail is dropped). -/
def psW : List Str := ["New text".toList, "Second".toList, "extra".toList]

/-- Witness for C1 at a concrete document and update list. -/
theorem extract_after_patch_witness :
    extractParagraphsFromDocxBase64 (patchDocxWithParagraphs docW psW) =
      normalizeParagraphs docW.length psW :=
  extract_after_patch docW psW (by decide) (by decide)

/-- C4: `distributeAcrossNodes` rejoins text losslessly: for every string and
every non-empty list of text nodes, the concatenation of the nodes' text
contents after distribution, in order, equals the distributed text. -/
theorem distributeAcrossNodes_rejoin (text : Str) (nodes : List TNode) (h : nodes ≠ []) :
    ((distributeAcrossNodes text nodes).map TNode.text).flatten = text :=
  distributeAcrossNodes_flatten text nodes h

/-- Concrete node list: shorter target text than the original total length. -/
def nodesW : List TNode :=
  [⟨"a".toList, "ab".toList⟩, ⟨"b".toList, "".toList⟩, ⟨"c".toList, "cdef".toList⟩]

/-- Witness for C4 at a concrete node list. -/
theorem distributeAcrossNodes_rejoin_witness :
    ((distributeAcrossNodes "short".toList nodesW).map TNode.text).flatten = "short".toList :=
  distributeAcrossNodes_rejoin "short".toList nodesW (by decide)

lemma forall2_patch_zip (doc : List Paragraph) (ns : List Str)
    (hlen : doc.length = ns.length) :
    List.Forall₂ (fun p q =>
        q.attrs = p.attrs ∧ q.tnodes.map TNode.attrs = p.tnodes.map TNode.attrs ∧
          (p.tnodes = [] → q = p))
      doc ((doc.zip ns).map fun pq =>
        if pq.1.tnodes.isEmpty then pq.1
        else { pq.1 with tnodes := distributeAcrossNodes pq.2 pq.1.tnodes }) := by
  induction doc generalizing ns with
  | nil => simp
  | cons p doc ih =>
    cases ns with
    | nil => simp at hlen
    | cons t ns =>
      simp only [List.zip_cons_cons, List.map_cons]
      refine List.Forall₂.cons ?_ (ih ns (by simpa using hlen))
      dsimp only
      cases hpt : p.tnodes with
      | nil => simp [hpt]
      | cons a l => simp [distributeAcrossNodes_map_attrs]

/-- C3: `patchDocxWithParagraphs` preserves document structure: the output has
exactly the same `w:p` paragraph elements (same count, same paragraph identity)
and exactly the same `w:t` text nodes (same per-paragraph node-identity list,
so none added or removed — only text contents may change); a paragraph with no
`w:t` node is returned entirely unchanged; and updated-paragraph entries beyond
the original paragraph count are ignored. -/
theorem patchDocx_preserves_structure (doc : List Paragraph) (ps : List Str) :
    (patchDocxWithParagraphs doc ps).length = doc.length ∧
    List.Forall₂ (fun p q =>
        q.attrs = p.attrs ∧ q.tnodes.map TNode.attrs = p.tnodes.map TNode.attrs ∧
          (p.tnodes = [] → q = p))
      doc (patchDocxWithParagraphs doc ps) ∧
    patchDocxWithParagraphs doc ps = patchDocxWithParagraphs doc (ps.take doc.length) := by
  have hlen : doc.length = (normalizeParagraphs doc.length ps).length :=
    (normalizeParagraphs_length doc.length ps).symm
  refine ⟨?_, ?_, ?_⟩
  · simp [patchDocxWithParagraphs, normalizeParagraphs_length]
  · simpa [patchDocxWithParagraphs] using
      forall2_patch_zip doc (normalizeParagraphs doc.length ps) hlen
  · have hsame : normalizeParagraphs doc.length (ps.take doc.length) =
        normalizeParagraphs doc.length ps := by
      simp [normalizeParagraphs, List.take_take]
    simp [patchDocxWithParagraphs, hsame]

/-- `JobPosting` (src/src/types/index.ts lines 19-30).  Optional fields are
`Option`; numeric timestamps are `Int`. -/
structure JobPosting where
  id : Str
  title : Str
  company : Str
  description : Str
  url : Str
  extractedDate : Int
  location : Option Str
  salary : Option Str
  postedDate : Option Str
  platform : Option Str
deriving DecidableEq

/-- Generic replace-or-append by key, the shape shared by
`StorageManager.saveJob`, `handleJobExtraction` (key = `url`) and `upsertById`
in src/src/firebase/sync.ts lines 250-254 (key = `id`; there
`arr[idx] = { ...arr[idx], ...item }` replaces every field because the pulled
`item` objects carry every key, hence plain replacement). -/
def upsertBy {α : Type} (key : α → Str) (arr : List α) (item : α) : List α :=
  match arr.findIdx? (fun x => key x == key item) with
  | some i => arr.set i item
  | none => arr ++ [item]

/-- `StorageManager.saveJob` (storage utility, src/unnamed/part_001 lines
70-83) acting on the stored `jobs` list: `findIndex` an existing job with the
same `url` and replace it in place, otherwise push. -/
def saveJob (jobs : List JobPosting) (job : JobPosting) : List JobPosting :=
  match jobs.findIdx? (fun j => j.url == job.url) with
  | some i => jobs.set i job
  | none => jobs ++ [job]

/-- The `jobs` update performed by `handleJobExtraction`
(src/src/background/background.ts lines 55-65): the identical
findIndex-by-url replace-or-push. -/
def handleJobExtractionJobs (jobs : List JobPosting) (job : JobPosting) : List JobPosting :=
  match jobs.findIdx? (fun j => j.url == job.url) with
  | some i => jobs.set i job
  | none => jobs ++ [job]

lemma upsertBy_cons_of_eq {α : Type} (key : α → Str) (a : α) (l : List α) (item : α)
    (h : (key a == key item) = true) :
    upsertBy key (a :: l) item = item :: l := by
  simp [upsertBy, List.findIdx?_cons, h]

lemma upsertBy_cons_of_ne {α : Type} (key : α → Str) (a : α) (l : List α) (item : α)
    (h : (key a == key item) = false) :
    upsertBy key (a :: l) item = a :: upsertBy key l item := by
  simp only [upsertBy, List.findIdx?_cons, h, if_false, Bool.false_eq_true,
    List.findIdx?_succ]
  cases hfi : l.findIdx? (fun x => key x == key item) with
  | none => rfl
  | some i => simp [List.set_cons_succ]

lemma mem_map_key_upsertBy {α : Type} (key : α → Str) (l : List α) (item : α) (c : Str)
    (hc : c ∈ (upsertBy key l item).map key) : c ∈ l.map key ∨ c = key item := by
  simp only [upsertBy] at hc
  cases hfi : l.findIdx? (fun x => key x == key item) with
  | none =>
    rw [hfi] at hc
    simpa using hc
  | some i =>
    rw [hfi] at hc
    simp only [List.mem_map] at hc
    obtain ⟨x, hx, rfl⟩ := hc
    rcases List.mem_or_eq_of_mem_set hx with h | h
    · exact Or.inl (List.mem_map_of_mem key h)
    · exact Or.inr (by rw [h])

lemma upsertBy_nodup {α : Type} (key : α → Str) (arr : List α) (item : α)
    (h : (arr.map key).Nodup) : ((upsertBy key arr item).map key).Nodup := by
  induction arr with
  | nil => simp [upsertBy]
  | cons a l ih =>
    simp only [List.map_cons, List.nodup_cons] at h
    by_cases hk : (key a == key item) = true
    · rw [upsertBy_cons_of_eq key a l item hk]
      have : key a = key item := by simpa using hk
      simp only [List.map_cons, List.nodup_cons]
      exact ⟨this ▸ h.1, h.2⟩
    · rw [upsertBy_cons_of_ne key a l item (by simpa using hk)]
      simp only [List.map_cons, List.nodup_cons]
      refine ⟨fun hmem => ?_, ih h.2⟩
      rcases mem_map_key_upsertBy key l item (key a) hmem with hm | hm
      · exact h.1 hm
      · exact hk (by simp [hm])

lemma upsertBy_not_found {α : Type} (key : α → Str) (arr : List α) (item : α)
    (h : ∀ x ∈ arr, key x ≠ key item) :
    upsertBy key arr item = arr ++ [item] := by
  have hfi : arr.findIdx? (fun x => key x == key item) = none :=
    List.findIdx?_eq_none_iff.mpr (fun x hx => by simpa using h x hx)
  simp [upsertBy, hfi]

lemma upsertBy_found_exists {α : Type} (key : α → Str) (arr : List α) (item : α)
    (h : ∃ x ∈ arr, key x = key item) :
    ∃ i, arr.findIdx? (fun x => key x == key item) = some i ∧
      upsertBy key arr item = arr.set i item := by
  cases hfi : arr.findIdx? (fun x => key x == key item) with
  | none =>
    obtain ⟨x, hx, hxk⟩ := h
    have := List.findIdx?_eq_none_iff.mp hfi x hx
    simp [hxk] at this
  | some i => exact ⟨i, rfl, by simp [upsertBy, hfi]⟩

/-- C9: stored job URLs stay unique: when no two stored jobs share a `url`,
the list after `StorageManager.saveJob` (equivalently, after the
`handleJobExtraction` message handler, which performs the identical update)
still has pairwise-distinct urls; saving a job whose url matches a stored job
replaces that entry in place (length unchanged), while a job with a new url is
appended. -/
theorem saveJob_preserves_url_uniqueness (jobs : List JobPosting) (job : JobPosting)
    (h : (jobs.map JobPosting.url).Nodup) :
    ((saveJob jobs job).map JobPosting.url).Nodup ∧
    handleJobExtractionJobs jobs job = saveJob jobs job ∧
    ((∃ j ∈ jobs, j.url = job.url) →
      (saveJob jobs job).length = jobs.length ∧
      ∃ i, jobs.findIdx? (fun j => j.url == job.url) = some i ∧
        saveJob jobs job = jobs.set i job) ∧
    ((∀ j ∈ jobs, j.url ≠ job.url) → saveJob jobs job = jobs ++ [job]) := by
  have heq : saveJob jobs job = upsertBy JobPosting.url jobs job := rfl
  refine ⟨?_, rfl, ?_, ?_⟩
  · rw [heq]
    exact upsertBy_nodup JobPosting.url jobs job h
  · intro hex
    obtain ⟨i, hfi, hset⟩ := upsertBy_found_exists JobPosting.url jobs job hex
    exact ⟨by rw [heq, hset]; simp, ⟨i, hfi, by rw [heq, hset]⟩⟩
  · intro hall
    rw [heq]
    exact upsertBy_not_found JobPosting.url jobs job hall

/-- A stored job. -/
def jobW1 : JobPosting :=
  ⟨"1".toList, "T1".toList, "C1".toList, "D1".toList, "u1".toList, 5, none, none, none, none⟩

/-- Another stored job with a different url. -/
def jobW2 : JobPosting :=
  ⟨"2".toList, "T2".toList, "C2".toList, "D2".toList, "u2".toList, 6, none, none, none, none⟩

/-- A re-extracted job sharing `jobW1`'s url. -/
def jobW3 : JobPosting :=
  ⟨"3".toList, "T3".toList, "C3".toList, "D3".toList, "u1".toList, 7, none, none, none, none⟩

/-- Witness for C9 at a concrete url-unique store. -/
theorem saveJob_preserves_url_uniqueness_witness :
    ((saveJob [jobW1, jobW2] jobW3).map JobPosting.url).Nodup ∧
      (saveJob [jobW1, jobW2] jobW3).length = 2 :=
  ⟨(saveJob_preserves_url_uniqueness [jobW1, jobW2] jobW3 (by decide)).1,
   ((saveJob_preserves_url_uniqueness [jobW1, jobW2] jobW3 (by decide)).2.2.1
      ⟨jobW1, by decide, by decide⟩).1⟩

/-- `Resume` (src/src/types/index.ts lines 3-17).  Optional fields are
`Option`; timestamps are `Int`. -/
structure Resume where
  id : Str
  name : Str
  content : Str
  parsedText : Str
  uploadDate : Int
  isDefault : Bool
  originalFileUrl : Option Str
  originalFileProvider : Option Str
  originalFilePublicId : Option Str
  originalFileMimeType : Option Str
  originalFileName : Option Str
deriving DecidableEq

/-- `StorageManager.saveResume` (src/unnamed/part_001 lines 41-51): if the
resume being saved is marked default, first clear `isDefault` on every stored
resume; then push the new resume. -/
def saveResume (resumes : List Resume) (resume : Resume) : List Resume :=
  (if resume.isDefault then resumes.map (fun r => { r with isDefault := false })
   else resumes) ++ [resume]

/-- The default-enforcement step of `tryCloudPullAllToLocal`
(src/src/firebase/sync.ts lines 351-355): if some merged resume is default,
re-mark `isDefault` exactly on the resumes whose id equals the first default's
id. -/
def enforceOneDefault (resumes : List Resume) : List Resume :=
  match resumes.find? (fun r => r.isDefault) with
  | none => resumes
  | some cloudDefault =>
      resumes.map (fun r => { r with isDefault := r.id == cloudDefault.id })

/-- The invariant of C8: at most one stored resume is flagged default. -/
def atMostOneDefault (resumes : List Resume) : Prop :=
  (resumes.filter (fun r => r.isDefault)).length ≤ 1

/-- Environment of a sync operation: the config/auth context read by
`isFirebaseEnabled`, `getFirestore`, `getFirebaseAuth`,
`firebaseAuth.currentUser` and the clock (`Date.now()` / `serverTimestamp()`).
These are constant during one operation. -/
structure SyncEnv where
  firebaseEnabled : Bool
  firestoreConfigured : Bool
  authConfigured : Bool
  currentUser : Option Str
  now : Int
deriving DecidableEq

/-- A Firestore document under `users/{uid}/resumes` — the fields written by
`tryCloudSyncResume` plus the legacy `pdfChunkCount` / ordered `pdfChunks`
subcollection kept for backward compatibility (`setDoc` with `merge: true`
leaves them intact). -/
structure CloudResumeDoc where
  id : Str
  name : Str
  parsedText : Str
  uploadDate : Int
  isDefault : Bool
  originalFileUrl : Option Str
  originalFileProvider : Option Str
  originalFilePublicId : Option Str
  originalFileMimeType : Option Str
  originalFileName : Option Str
  updatedAt : Int
  pdfChunkCount : Nat
  pdfChunks : List Str
deriving DecidableEq

/-- JS truthiness coercion `x ? String(x) : undefined` on an optional string
field: absent and empty-string values both become `undefined`. -/
def optTruthy (o : Option Str) : Option Str :=
  match o with
  | none => none
  | some s => if s = [] then none else some s

/-- Conversion of one cloud resume document to a local `Resume`
(src/src/firebase/sync.ts lines 258-288): falsy-guarded field coercions
(`String(r.name || 'Resume')`, `Number(r.uploadDate || Date.now())`,
`Boolean(r.isDefault)`, `x ? String(x) : undefined`), then `content`
hydration — keep the local content when a local resume with the same id has
non-empty content; otherwise, when there is no file URL and a positive legacy
chunk count, rebuild content by joining the index-ordered `pdfChunks`;
otherwise content stays empty. -/
def cloudResumeToLocal (env : SyncEnv) (resumes : List Resume) (d : CloudResumeDoc) :
    Resume :=
  let base : Resume := {
    id := d.id
    name := if d.name = [] then "Resume".toList else d.name
    content := []
    parsedText := d.parsedText
    uploadDate := if d.uploadDate = 0 then env.now else d.uploadDate
    isDefault := d.isDefault
    originalFileUrl := optTruthy d.originalFileUrl
    originalFileProvider := (optTruthy d.originalFileProvider).map
      (fun _ => "cloudinary".toList)
    originalFilePublicId := optTruthy d.originalFilePublicId
    originalFileMimeType := optTruthy d.originalFileMimeType
    originalFileName := optTruthy d.originalFileName }
  let hydrated :=
    if base.originalFileUrl = none ∧ 0 < d.pdfChunkCount then
      { base with content := d.pdfChunks.flatten }
    else base
  match resumes.find? (fun x => x.id == d.id) with
  | some existing =>
      if existing.content ≠ [] then { base with content := existing.content } else hydrated
  | none => hydrated

/-- The resume-merge loop of `tryCloudPullAllToLocal` (src/src/firebase/sync.ts
lines 258-291): convert each cloud document against the accumulated list and
upsert it by id. -/
def mergeCloudResumes (env : SyncEnv) (localResumes : List Resume)
    (cloudDocs : List CloudResumeDoc) : List Resume :=
  cloudDocs.foldl (fun acc d => upsertBy Resume.id acc (cloudResumeToLocal env acc d))
    localResumes

lemma mergeCloudResumes_nodup (env : SyncEnv) :
    ∀ (cloudDocs : List CloudResumeDoc) (localResumes : List Resume),
      (localResumes.map Resume.id).Nodup →
      ((mergeCloudResumes env localResumes cloudDocs).map Resume.id).Nodup := by
  intro cloudDocs
  induction cloudDocs with
  | nil => intro l h; simpa [mergeCloudResumes] using h
  | cons d docs ih =>
    intro l h
    simpa [mergeCloudResumes] using
      ih (upsertBy Resume.id l (cloudResumeToLocal env l d)) (upsertBy_nodup _ _ _ h)

lemma filter_id_eq_one (l : List Resume) (d : Resume)
    (hids : (l.map Resume.id).Nodup) (hd : d ∈ l) :
    (l.filter (fun r => r.id == d.id)).length = 1 := by
  induction l with
  | nil => simp at hd
  | cons a l ih =>
    simp only [List.map_cons, List.nodup_cons] at hids
    rcases List.mem_cons.mp hd with heq | hmem
    · subst heq
      have hnil : l.filter (fun r => r.id == d.id) = [] := by
        rw [List.filter_eq_nil_iff]
        intro r hr hbeq
        have heqid : r.id = d.id := by simpa using hbeq
        exact hids.1 (by rw [← heqid]; exact List.mem_map_of_mem Resume.id hr)
      simp [List.filter_cons, hnil]
    · have hne : (a.id == d.id) = false := by
        apply Bool.eq_false_iff.mpr
        intro hbeq
        have heq2 : a.id = d.id := by simpa using hbeq
        exact hids.1 (by rw [heq2]; exact List.mem_map_of_mem Resume.id hmem)
      rw [List.filter_cons]
      simp only [hne, Bool.false_eq_true, if_false]
      exact ih hids.2 hmem

lemma enforceOneDefault_exactly_one (resumes : List Resume)
    (hids : (resumes.map Resume.id).Nodup)
    (hex : ∃ r ∈ resumes, r.isDefault = true) :
    ((enforceOneDefault resumes).filter (fun r => r.isDefault)).length = 1 := by
  obtain ⟨r0, hr0, hdef⟩ := hex
  cases hfd : resumes.find? (fun r => r.isDefault) with
  | none =>
    have := List.find?_eq_none.mp hfd r0 hr0
    simp [hdef] at this
  | some d =>
    have hdmem : d ∈ resumes := List.mem_of_find?_eq_some hfd
    simp only [enforceOneDefault, hfd]
    rw [List.filter_map, List.length_map]
    exact filter_id_eq_one resumes d hids hdmem

lemma cleared_resumes_no_default (resumes : List Resume) :
    (resumes.map fun r => { r with isDefault := false }).filter (fun r => r.isDefault)
      = [] := by
  induction resumes <;> simp_all

/-- C8: every operation that writes the stored resumes list preserves the
at-most-one-default invariant: `StorageManager.saveResume` clears the default
flag of all existing resumes whenever the saved resume is default (making the
new resume the unique default), and the resume-pull of `tryCloudPullAllToLocal`
(merge then `enforceOneDefault`) ends with exactly one default whenever any
merged resume is marked default, for stored lists with pairwise-distinct ids. -/
theorem one_default_invariant (resumes : List Resume) (resume : Resume)
    (hinv : atMostOneDefault resumes) (hids : (resumes.map Resume.id).Nodup) :
    atMostOneDefault (saveResume resumes resume) ∧
    (resume.isDefault = true →
      (saveResume resumes resume).filter (fun r => r.isDefault) = [resume]) ∧
    (∀ (env : SyncEnv) (cloudDocs : List CloudResumeDoc),
      (∃ r ∈ mergeCloudResumes env resumes cloudDocs, r.isDefault = true) →
      ((enforceOneDefault (mergeCloudResumes env resumes cloudDocs)).filter
          (fun r => r.isDefault)).length = 1) := by
  refine ⟨?_, ?_, ?_⟩
  · unfold atMostOneDefault saveResume
    by_cases hd : resume.isDefault = true
    · rw [if_pos hd, List.filter_append, cleared_resumes_no_default]
      simp [hd]
    · rw [if_neg hd, List.filter_append]
      have : List.filter (fun r => r.isDefault) [resume] = [] := by
        simp [List.filter, hd]
      rw [this, List.append_nil]
      exact hinv
  · intro hd
    unfold saveResume
    rw [if_pos hd, List.filter_append, cleared_resumes_no_default]
    simp [hd]
  · intro env cloudDocs hex
    exact enforceOneDefault_exactly_one _ (mergeCloudResumes_nodup env cloudDocs resumes hids)
      hex

/-- A stored default resume. -/
def resumeW1 : Resume :=
  ⟨"r1".toList, "Main".toList, "c".toList, "text".toList, 3, true,
    none, none, none, none, none⟩

/-- A new resume saved as default. -/
def resumeW2 : Resume :=
  ⟨"r2".toList, "New".toList, "c2".toList, "text2".toList, 4, true,
    none, none, none, none, none⟩

/-- Witness for C8: saving a new default over an existing default keeps the
invariant, and the new resume is the unique default. -/
theorem one_default_invariant_witness :
    atMostOneDefault (saveResume [resumeW1] resumeW2) ∧
      (saveResume [resumeW1] resumeW2).filter (fun r => r.isDefault) = [resumeW2] :=
  ⟨(one_default_invariant [resumeW1] resumeW2
      (by unfold atMostOneDefault; decide) (by decide)).1,
   (one_default_invariant [resumeW1] resumeW2
      (by unfold atMostOneDefault; decide) (by decide)).2.1 (by decide)⟩

/-- `OptimizedResume` (src/src/types/index.ts lines 62-66: `Resume` plus
originalResumeId / jobId / modifications). -/
structure OptimizedResume where
  id : Str
  name : Str
  content : Str
  parsedText : Str
  uploadDate : Int
  isDefault : Bool
  originalFileUrl : Option Str
  originalFileProvider : Option Str
  originalFilePublicId : Option Str
  originalFileMimeType : Option Str
  originalFileName : Option Str
  originalResumeId : Str
  jobId : Str
  modifications : List Str
deriving DecidableEq

/-- `CoverLetter` (src/src/types/index.ts lines 55-60). -/
structure CoverLetter where
  id : Str
  jobId : Str
  content : Str
  createdDate : Int
deriving DecidableEq

/-- The optimized-resume branch of `saveGeneratedContent`
(src/src/popup/utils/download.ts lines 941-988) as a transformation of the
stored `optimizedResumes` list: if a record for the same job with identical
`parsedText` already exists, storage is left unchanged and that record's id is
reused; otherwise a fresh record (new id, the generated text, `content` empty,
fields inherited from the original resume) is pushed.  Returns the stored list
and the id the UI state then points to. -/
def saveGeneratedResume (optimizedResumes : List OptimizedResume) (jobId text : Str)
    (newId name : Str) (now : Int) (orig : Resume) (modifications : List Str) :
    List OptimizedResume × Str :=
  match optimizedResumes.find? (fun o => o.jobId == jobId && o.parsedText == text) with
  | some dup => (optimizedResumes, dup.id)
  | none =>
    let optimized : OptimizedResume := {
      id := newId
      name := name
      content := []
      parsedText := text
      uploadDate := now
      isDefault := false
      originalFileUrl := orig.originalFileUrl
      originalFileProvider := orig.originalFileProvider
      originalFilePublicId := orig.originalFilePublicId
      originalFileMimeType := orig.originalFileMimeType
      originalFileName := orig.originalFileName
      originalResumeId := orig.id
      jobId := jobId
      modifications := modifications }
    (optimizedResumes ++ [optimized], newId)

/-- The cover-letter branch of `saveGeneratedContent`
(src/src/popup/utils/download.ts lines 990-1025): same duplicate check on
(`jobId`, `content`), reusing the existing record's id, else push. -/
def saveGeneratedCoverLetter (coverLetters : List CoverLetter) (jobId text : Str)
    (newId : Str) (now : Int) : List CoverLetter × Str :=
  match coverLetters.find? (fun cl => cl.jobId == jobId && cl.content == text) with
  | some dup => (coverLetters, dup.id)
  | none => (coverLetters ++ [⟨newId, jobId, text, now⟩], newId)

/-- C7: persisting generated content is duplicate-free: when the text being
saved matches an optimized resume (resp. cover letter) already stored for the
same job, no record is appended — the stored list is unchanged and the existing
record's id is reused — and saving the same generated text twice for one job is
idempotent on storage (the second save returns exactly the state and id of the
first). -/
theorem saveGeneratedContent_idempotent
    (ors : List OptimizedResume) (cls : List CoverLetter) (jobId text : Str)
    (id1 name1 : Str) (now1 : Int) (orig1 : Resume) (mods1 : List Str)
    (id2 name2 : Str) (now2 : Int) (orig2 : Resume) (mods2 : List Str)
    (idc1 : Str) (nowc1 : Int) (idc2 : Str) (nowc2 : Int) :
    (∀ dup, ors.find? (fun o => o.jobId == jobId && o.parsedText == text) = some dup →
      saveGeneratedResume ors jobId text id1 name1 now1 orig1 mods1 = (ors, dup.id)) ∧
    saveGeneratedResume (saveGeneratedResume ors jobId text id1 name1 now1 orig1 mods1).1
        jobId text id2 name2 now2 orig2 mods2 =
      saveGeneratedResume ors jobId text id1 name1 now1 orig1 mods1 ∧
    (∀ dup, cls.find? (fun cl => cl.jobId == jobId && cl.content == text) = some dup →
      saveGeneratedCoverLetter cls jobId text idc1 nowc1 = (cls, dup.id)) ∧
    saveGeneratedCoverLetter (saveGeneratedCoverLetter cls jobId text idc1 nowc1).1
        jobId text idc2 nowc2 =
      saveGeneratedCoverLetter cls jobId text idc1 nowc1 := by
  refine ⟨?_, ?_, ?_, ?_⟩
  · intro dup hdup
    simp [saveGeneratedResume, hdup]
  · cases hfd : ors.find? (fun o => o.jobId == jobId && o.parsedText == text) with
    | some dup => simp [saveGeneratedResume, hfd]
    | none =>
      simp only [saveGeneratedResume, hfd]
      rw [List.find?_append, hfd]
      simp
  · intro dup hdup
    simp [saveGeneratedCoverLetter, hdup]
  · cases hfd : cls.find? (fun cl => cl.jobId == jobId && cl.content == text) with
    | some dup => simp [saveGeneratedCoverLetter, hfd]
    | none =>
      simp only [saveGeneratedCoverLetter, hfd]
      rw [List.find?_append, hfd]
      simp

/-- A stored optimized resume for job `j` with text `t`. -/
def orW : OptimizedResume :=
  ⟨"o1".toList, "N".toList, "".toList, "t".toList, 9, false,
    none, none, none, none, none, "r1".toList, "j".toList, []⟩

/-- An original resume record for the witness. -/
def origW : Resume :=
  ⟨"r1".toList, "Main".toList, "c".toList, "ptext".toList, 3, false,
    none, none, none, none, none⟩

/-- Witness for C7: saving the text already stored for job `j` leaves the
stored list unchanged and reuses `orW`'s id. -/
theorem saveGeneratedContent_idempotent_witness :
    saveGeneratedResume [orW] "j".toList "t".toList "o2".toList "N2".toList 11 origW []
      = ([orW], orW.id) :=
  (saveGeneratedContent_idempotent [orW] [] "j".toList "t".toList
      "o2".toList "N2".toList 11 origW [] "x".toList "y".toList 12 origW []
      "c1".toList 13 "c2".toList 14).1 orW (by decide)

/-- `clamp` (src/src/popup/utils/download.ts line 707):
`Math.max(min, Math.min(max, n))`. -/
def clamp (n lo hi : ℚ) : ℚ := max lo (min hi n)

/-- Characters that survive `tokenize`'s `[^a-z0-9\s]` scrub after
`toLowerCase`: lowercase ASCII letters and digits.  Every other character is a
word boundary (whitespace stays whitespace and everything else is replaced by a
space before the `\s+` split, so both separate words). -/
def isWordChar (c : Char) : Bool := ('a' ≤ c && c ≤ 'z') || ('0' ≤ c && c ≤ '9')

/-- Accumulator pass of the word split (current partially-read word reversed in
`acc`). -/
def splitWordsAux (acc : Str) : Str → List Str
  | [] => if acc.isEmpty then [] else [acc.reverse]
  | c :: cs =>
    if isWordChar c then splitWordsAux (c :: acc) cs
    else if acc.isEmpty then splitWordsAux [] cs
    else acc.reverse :: splitWordsAux [] cs

/-- Split into the maximal runs of word characters — the composite of
`replace(/[^a-z0-9\s]/g, ' ')`, `split(/\s+/)` and `filter(Boolean)`. -/
def splitWords (s : Str) : List Str := splitWordsAux [] s

/-- The stopword set (src/src/popup/utils/download.ts lines 727-729). -/
def stopwords : List Str :=
  ["a", "an", "and", "are", "as", "at", "be", "but", "by", "for", "from", "has",
   "have", "if", "in", "into", "is", "it", "its", "of", "on", "or", "our", "s",
   "such", "t", "that", "the", "their", "then", "there", "these", "they", "this",
   "to", "was", "we", "were", "will", "with", "you", "your"].map String.toList

/-- `tokenize` (src/src/popup/utils/download.ts lines 731-738): lower-case,
scrub everything outside `[a-z0-9\s]`, split on whitespace runs, keep words of
length at least 3 that are not stopwords. -/
def tokenize (text : Str) : List Str :=
  ((splitWords (text.map Char.toLower)).filter (fun w => 3 ≤ w.length)).filter
    (fun w => !stopwords.contains w)

/-- One step of the frequency-map construction
(`freq.set(w, (freq.get(w) || 0) + 1)`) on an insertion-ordered association
list — a JS `Map` iterates in insertion order. -/
def bumpFreq : List (Str × Nat) → Str → List (Str × Nat)
  | [], w => [(w, 1)]
  | (k, n) :: rest, w =>
    if k = w then (k, n + 1) :: rest else (k, n) :: bumpFreq rest w

/-- The insertion-ordered frequency map of a word list. -/
def buildFreq (ws : List Str) : List (Str × Nat) := ws.foldl bumpFreq []

/-- The score curve `Math.round(clamp(15 + ratio * 85, 0, 100))` (download.ts
line 759) with `ratio = hit / denom`. -/
def scoreCurve (hit denom : Nat) : ℤ :=
  round (clamp (15 + ((hit : ℚ) / (denom : ℚ)) * 85) 0 100)

/-- `computeHeuristicScore` (src/src/popup/utils/download.ts lines 740-761):
0 when either text tokenizes to nothing; otherwise the score curve over the
fraction of the 40 most frequent job words (stable descending sort by count,
matching the stable JS `sort((a, b) => b[1] - a[1])`) found in the resume word
set, with the `Math.max(1, …)` guard on the denominator. -/
def computeHeuristicScore (resumeText jobText : Str) : ℤ :=
  let jobWords := tokenize jobText
  let resumeWords := tokenize resumeText
  if jobWords.isEmpty || resumeWords.isEmpty then 0
  else
    let topJobTerms :=
      (((buildFreq jobWords).mergeSort (fun a b => b.2 ≤ a.2)).take 40).map Prod.fst
    let hit := (topJobTerms.filter (fun w => resumeWords.contains w)).length
    scoreCurve hit (max 1 topJobTerms.length)

example : tokenize "Great Python, and good S.Q.L!".toList
    = ["great".toList, "python".toList, "good".toList] := by decide

example : computeHeuristicScore "".toList "python".toList = 0 := by decide

lemma round_bounds (q : ℚ) (lo hi : ℤ) (h1 : (lo : ℚ) ≤ q) (h2 : q ≤ (hi : ℚ)) :
    lo ≤ round q ∧ round q ≤ hi := by
  rw [round_eq]
  constructor
  · rw [Int.le_floor]
    linarith
  · have hlt : ⌊q + 1 / 2⌋ < hi + 1 := by
      rw [Int.floor_lt]
      push_cast
      linarith
    omega

lemma scoreCurve_bounds (hit denom : Nat) (hpos : 0 < denom) (hle : hit ≤ denom) :
    15 ≤ scoreCurve hit denom ∧ scoreCurve hit denom ≤ 100 := by
  have hdq : (0 : ℚ) < (denom : ℚ) := by exact_mod_cast hpos
  have hfrac0 : (0 : ℚ) ≤ (hit : ℚ) / (denom : ℚ) :=
    div_nonneg (by positivity) (le_of_lt hdq)
  have hfrac1 : (hit : ℚ) / (denom : ℚ) ≤ 1 := by
    rw [div_le_one hdq]
    exact_mod_cast hle
  have hc1 : (15 : ℚ) ≤ clamp (15 + (hit : ℚ) / (denom : ℚ) * 85) 0 100 := by
    unfold clamp
    have hx : (15 : ℚ) ≤ 15 + (hit : ℚ) / (denom : ℚ) * 85 := by nlinarith
    exact le_trans (le_min (by norm_num) hx) (le_max_right _ _)
  have hc2 : clamp (15 + (hit : ℚ) / (denom : ℚ) * 85) 0 100 ≤ 100 := by
    unfold clamp
    exact max_le (by norm_num) (min_le_left _ _)
  unfold scoreCurve
  exact round_bounds _ 15 100 (by exact_mod_cast hc1) (by exact_mod_cast hc2)

lemma computeHeuristicScore_empty (resumeText jobText : Str)
    (h : tokenize jobText = [] ∨ tokenize resumeText = []) :
    computeHeuristicScore resumeText jobText = 0 := by
  have hcond : ((tokenize jobText).isEmpty || (tokenize resumeText).isEmpty) = true := by
    rcases h with h | h <;> simp [h]
  simp [computeHeuristicScore, hcond]

lemma computeHeuristicScore_nonempty (resumeText jobText : Str)
    (hj : tokenize jobText ≠ []) (hr : tokenize resumeText ≠ []) :
    15 ≤ computeHeuristicScore resumeText jobText ∧
      computeHeuristicScore resumeText jobText ≤ 100 := by
  have hcond : ((tokenize jobText).isEmpty || (tokenize resumeText).isEmpty) = false := by
    simp [List.isEmpty_iff, hj, hr]
  simp only [computeHeuristicScore, hcond, Bool.false_eq_true, if_false]
  exact scoreCurve_bounds _ _ (by omega)
    (le_trans (List.length_filter_le _ _) (le_max_right 1 _))

lemma computeHeuristicScore_nonneg_le (resumeText jobText : Str) :
    0 ≤ computeHeuristicScore resumeText jobText ∧
      computeHeuristicScore resumeText jobText ≤ 100 := by
  by_cases h : tokenize jobText = [] ∨ tokenize resumeText = []
  · rw [computeHeuristicScore_empty resumeText jobText h]
    exact ⟨le_refl 0, by norm_num⟩
  · push_neg at h
    have := computeHeuristicScore_nonempty resumeText jobText h.1 h.2
    exact ⟨by omega, this.2⟩

/-- C10: `computeHeuristicScore` returns 0 whenever either input tokenizes to
an empty word list, and otherwise an integer between 15 and 100 inclusive (the
curve `Math.round(clamp(15 + ratio * 85, 0, 100))` with the hit ratio in
`[0,1]`): a non-empty resume against a non-empty job description never scores
below 15. -/
theorem computeHeuristicScore_range (resumeText jobText : Str) :
    ((tokenize jobText = [] ∨ tokenize resumeText = []) →
      computeHeuristicScore resumeText jobText = 0) ∧
    (tokenize jobText ≠ [] → tokenize resumeText ≠ [] →
      15 ≤ computeHeuristicScore resumeText jobText ∧
        computeHeuristicScore resumeText jobText ≤ 100) :=
  ⟨computeHeuristicScore_empty resumeText jobText,
   computeHeuristicScore_nonempty resumeText jobText⟩

/-- Witness for C10 at concrete non-empty texts. -/
theorem computeHeuristicScore_range_witness :
    15 ≤ computeHeuristicScore "python".toList "python java".toList ∧
      computeHeuristicScore "python".toList "python java".toList ≤ 100 :=
  (computeHeuristicScore_range "python".toList "python java".toList).2
    (by decide) (by decide)

/-- The score selection of `analyzeMatch` (src/src/popup/utils/download.ts
lines 2023-2033).  `aiScore` models `Number(data?.score)`, with `none` for a
non-finite value (`Number.isFinite` false: `NaN`, `±Infinity`) so that
`safeScore` is `clamp(aiScore, 0, 100)` when finite and `NaN` (`none`)
otherwise; the heuristic replaces the AI score when the latter is not finite or
clamps to 0 while the heuristic is at least 20; the stored score is
`Math.round` of the chosen value. -/
def analyzeMatchScore (aiScore : Option ℚ) (resumeText jobText : Str) : ℤ :=
  let safeScore : Option ℚ := aiScore.map (fun q => clamp q 0 100)
  let heuristic := computeHeuristicScore resumeText jobText
  if safeScore = none ∨ (safeScore = some 0 ∧ 20 ≤ heuristic) then
    round ((heuristic : ℚ))
  else round (safeScore.getD 0)

lemma analyzeMatchScore_eq_ite (aiScore : Option ℚ) (r j : Str) :
    analyzeMatchScore aiScore r j =
      if aiScore.map (fun q => clamp q 0 100) = none ∨
          (aiScore.map (fun q => clamp q 0 100) = some 0 ∧
            20 ≤ computeHeuristicScore r j) then
        round ((computeHeuristicScore r j : ℚ))
      else round ((aiScore.map (fun q => clamp q 0 100)).getD 0) := rfl

/-- C5: the resume-to-job fit score produced by `analyzeMatch` is always an
integer between 0 and 100 inclusive; and if the AI-reported score is not a
finite number, or equals 0 while the keyword-overlap heuristic score is at
least 20, the heuristic score is the result instead of the AI score. -/
theorem analyzeMatch_score_range (aiScore : Option ℚ) (resumeText jobText : Str) :
    (0 ≤ analyzeMatchScore aiScore resumeText jobText ∧
      analyzeMatchScore aiScore resumeText jobText ≤ 100) ∧
    ((aiScore = none ∨
        (aiScore = some 0 ∧ 20 ≤ computeHeuristicScore resumeText jobText)) →
      analyzeMatchScore aiScore resumeText jobText =
        computeHeuristicScore resumeText jobText) := by
  rw [analyzeMatchScore_eq_ite]
  constructor
  · by_cases hc : aiScore.map (fun q => clamp q 0 100) = none ∨
        (aiScore.map (fun q => clamp q 0 100) = some 0 ∧
          20 ≤ computeHeuristicScore resumeText jobText)
    · rw [if_pos hc, round_intCast]
      exact computeHeuristicScore_nonneg_le resumeText jobText
    · rw [if_neg hc]
      cases haq : aiScore with
      | none => exact absurd (Or.inl (by simp [haq])) hc
      | some q =>
        simp only [haq, Option.map_some', Option.getD_some]
        have h1 : (0 : ℚ) ≤ clamp q 0 100 := le_max_left _ _
        have h2 : clamp q 0 100 ≤ 100 := max_le (by norm_num) (min_le_left _ _)
        exact round_bounds _ 0 100 (by exact_mod_cast h1) (by exact_mod_cast h2)
  · intro h
    have hc : aiScore.map (fun q => clamp q 0 100) = none ∨
        (aiScore.map (fun q => clamp q 0 100) = some 0 ∧
          20 ≤ computeHeuristicScore resumeText jobText) := by
      rcases h with h | ⟨h, hh⟩
      · exact Or.inl (by simp [h])
      · refine Or.inr ⟨?_, hh⟩
        rw [h]
        simp only [Option.map_some', Option.some.injEq]
        unfold clamp
        norm_num
    rw [if_pos hc, round_intCast]

/-- Witness for C5: a non-finite AI score at concrete texts falls back to the
heuristic, which is in range. -/
theorem analyzeMatch_score_range_witness :
    analyzeMatchScore none "python".toList "java".toList =
        computeHeuristicScore "python".toList "java".toList ∧
      0 ≤ analyzeMatchScore none "python".toList "java".toList :=
  ⟨(analyzeMatch_score_range none "python".toList "java".toList).2 (Or.inl rfl),
   (analyzeMatch_score_range none "python".toList "java".toList).1.1⟩

/-- JSON values, as produced by a successful `JSON.parse` of the LLM response
(after `extractJsonObject`).  Numbers are modelled as integers — the only
numbers the merge logic reads are 1-based paragraph indices.  Object fields are
in insertion order with unique keys, as `JSON.parse` yields. -/
inductive Json where
  | null : Json
  | bool (b : Bool) : Json
  | num (n : Int) : Json
  | str (s : Str) : Json
  | arr (xs : List Json) : Json
  | obj (fields : List (Str × Json)) : Json

/-- Optional-chained property access `x?.k`: only objects have fields
(`undefined` = `none` otherwise). -/
def getField : Json → Str → Option Json
  | Json.obj fields, k => (fields.find? (fun f => f.1 == k)).map Prod.snd
  | _, _ => none

/-- JS truthiness of a JSON value: `null`, `false`, `0` and `''` are falsy;
objects and arrays are always truthy. -/
def jsTruthy : Json → Bool
  | Json.null => false
  | Json.bool b => b
  | Json.num n => !(n == 0)
  | Json.str s => !s.isEmpty
  | Json.arr _ => true
  | Json.obj _ => true

/-- `typeof x === 'object' && x !== null` on a JSON value: objects and arrays
(the source's explicit `!== null` check excludes `null`, whose `typeof` is also
`'object'`). -/
def isObjectLike : Json → Bool
  | Json.obj _ => true
  | Json.arr _ => true
  | _ => false

/-- A maximal digit run read as a natural number. -/
def digitsToNat (ds : Str) : Nat :=
  ds.foldl (fun acc c => acc * 10 + (c.toNat - '0'.toNat)) 0

/-- `parseInt(s, 10)`: skip leading whitespace, optional sign, then a maximal
decimal digit run; `NaN` (`none`) when there is no digit. -/
def parseIntJs (s : Str) : Option Int :=
  let t := s.dropWhile (fun c => c == ' ' || c == '\t' || c == '\n' || c == '\r')
  let signed : Int × Str :=
    match t with
    | '-' :: rest => (-1, rest)
    | '+' :: rest => (1, rest)
    | _ => (1, t)
  let digits := signed.2.takeWhile (fun c => '0' ≤ c && c ≤ '9')
  if digits.isEmpty then none else some (signed.1 * (digitsToNat digits : Int))

/-- `Number(s)` on a string: the empty/whitespace string is 0; a signed decimal
integer is its value; anything else (including non-integer numerals, which the
integer schema never produces) is `NaN`. -/
def jsNumberOfString (s : Str) : Option Int :=
  let t := s.filter (fun c => !(c == ' ' || c == '\t' || c == '\n' || c == '\r'))
  if t.isEmpty then some 0
  else
    let signed : Int × Str :=
      match t with
      | '-' :: rest => (-1, rest)
      | '+' :: rest => (1, rest)
      | _ => (1, t)
    if !signed.2.isEmpty && signed.2.all (fun c => '0' ≤ c && c ≤ '9') then
      some (signed.1 * (digitsToNat signed.2 : Int))
    else none

/-- `Number(x)` on an optional JSON value (`none` argument = the property was
absent, i.e. `undefined`); a `none` result stands for `NaN`.
`undefined → NaN`; `null → 0`; booleans → 0/1; numbers are themselves; strings
follow `jsNumberOfString`.  Object and array coercions (which detour through
string rendering in JS) are modelled as `NaN`: either way such an `index` is
not a usable 1-based integer in range and the entry is skipped. -/
def jsNumber : Option Json → Option Int
  | none => none
  | some Json.null => some 0
  | some (Json.bool b) => some (if b then 1 else 0)
  | some (Json.num n) => some n
  | some (Json.str s) => jsNumberOfString s
  | some (Json.arr _) => none
  | some (Json.obj _) => none

/-- `Object.entries(x)` as iterated by the object-map branch: an object's own
fields in insertion order; an array's index-keyed entries. -/
def jsEntries : Json → List (Str × Json)
  | Json.obj fields => fields
  | Json.arr xs => xs.enum.map (fun ia => ((toString ia.1).toList, ia.2))
  | _ => []

/-- `.replace(/\n/g, '')`. -/
def removeNewlines (s : Str) : Str := s.filter (fun c => !(c == '\n'))

/-- `if (!Number.isNaN(idx) && idx >= 1 && idx <= original.length)
newParagraphs[idx - 1] = text` — the guarded 1-based write shared by the
`replacements`-array and object-map branches. -/
def applyReplacement (origLen : Nat) (ps : List Str) (idx : Option Int) (text : Str) :
    List Str :=
  match idx with
  | none => ps
  | some i => if 1 ≤ i ∧ i ≤ (origLen : Int) then ps.set (i - 1).toNat text else ps

/-- `mergeParagraphsJson` (src/src/popup/utils/download.ts lines 1258-1305).
The `extractJsonObject` + `JSON.parse` front end is modelled by the
`Option Json` argument (`none` = the raw response did not parse as JSON, the
first `throw`).  `render` abstracts `v => stripMarkdownArtifacts(String(v ?? ''))`
— the regex body of `stripMarkdownArtifacts` (lines 719-725) composed with the
JS string coercion and the `?? ''` null/undefined fallback; the ok/error
outcome never depends on it.  The three accepted shapes, in source order:
a full `paragraphs` array (count-checked against the original), a
`replacements` array of `{index, text}` items, and an object map
`{replacements: {"1": "…"}}` falling back to the parsed value itself when
`replacements` is falsy or absent. -/
def mergeParagraphsJson (render : Option Json → Str) (parsed : Option Json)
    (original : List Str) : Except Str (List Str) :=
  match parsed with
  | none => Except.error "AI did not return valid JSON for DOCX content.".toList
  | some p =>
    match getField p "paragraphs".toList with
    | some (Json.arr arr) =>
      if arr.length ≠ original.length then
        Except.error ("AI returned full paragraph list but count mismatch: expected ".toList
          ++ (toString original.length).toList ++ ", got ".toList
          ++ (toString arr.length).toList ++ ".".toList)
      else Except.ok (arr.map fun v => removeNewlines (render (some v)))
    | _ =>
      match getField p "replacements".toList with
      | some (Json.arr items) =>
        Except.ok (items.foldl (fun ps item =>
          applyReplacement original.length ps
            (jsNumber (getField item "index".toList))
            (removeNewlines (render (getField item "text".toList)))) original)
      | other =>
        let replacements : Json :=
          match other with
          | some v => if jsTruthy v then v else p
          | none => p
        if isObjectLike replacements then
          Except.ok ((jsEntries replacements).foldl (fun ps kv =>
            applyReplacement original.length ps (parseIntJs kv.1)
              (removeNewlines (render (some kv.2)))) original)
        else Except.error "AI JSON is not a valid replacements format.".toList

/-- The DOCX replacement-parsing phase of `generateOptimizedResume`
(src/src/popup/utils/download.ts lines 1537-1560): merge the first response;
when that throws, issue exactly one repair request and merge its response; a
second failure propagates out of the surrounding `try` to the error handler
(all later steps — placeholder retry, refinement, duplicate check — run only
after a successful merge and never re-enter this phase).  `resp1`/`resp2` are
the parsed first and repair responses; the returned `Nat` counts the repair
requests this phase issues. -/
def docxJsonPhase (render : Option Json → Str) (original : List Str)
    (resp1 resp2 : Option Json) : Except Str (List Str) × Nat :=
  match mergeParagraphsJson render resp1 original with
  | Except.ok ps => (Except.ok ps, 0)
  | Except.error _ =>
    match mergeParagraphsJson render resp2 original with
    | Except.ok ps => (Except.ok ps, 1)
    | Except.error e => (Except.error e, 1)

example :
    mergeParagraphsJson (fun v => match v with | some (Json.str s) => s | _ => [])
      (some (Json.obj [("replacements".toList,
        Json.arr [Json.obj [("index".toList, Json.num 1),
                            ("text".toList, Json.str "new".toList)]])]))
      ["old".toList, "keep".toList] = Except.ok ["new".toList, "keep".toList] := rfl

example :
    mergeParagraphsJson (fun _ => []) (some (Json.num 3)) ["x".toList] =
      Except.error "AI JSON is not a valid replacements format.".toList := rfl

/-- C2: when the LLM's paragraph-replacement response fails to parse as a valid
replacements JSON object (`mergeParagraphsJson` throws), exactly one repair
request is issued; and when the repaired response also fails to parse, the
generation fails with that error — the phase never issues a second retry —
for every response pair and every rendering of the markdown-stripping
regexes. -/
theorem generateOptimizedResume_single_repair (render : Option Json → Str)
    (original : List Str) (resp1 resp2 : Option Json)
    (h1 : ∃ e, mergeParagraphsJson render resp1 original = Except.error e) :
    (docxJsonPhase render original resp1 resp2).2 = 1 ∧
    (∀ e2, mergeParagraphsJson render resp2 original = Except.error e2 →
      docxJsonPhase render original resp1 resp2 = (Except.error e2, 1)) := by
  obtain ⟨e, he⟩ := h1
  constructor
  · simp only [docxJsonPhase, he]
    cases mergeParagraphsJson render resp2 original <;> rfl
  · intro e2 he2
    simp only [docxJsonPhase, he, he2]

/-- Witness for C2: a first response that is a bare number (invalid format) and
a second response that is not JSON at all end the phase in the error state with
exactly one repair request. -/
theorem generateOptimizedResume_single_repair_witness :
    (docxJsonPhase (fun _ => []) ["x".toList] (some (Json.num 3)) none).2 = 1 ∧
      docxJsonPhase (fun _ => []) ["x".toList] (some (Json.num 3)) none =
        (Except.error "AI did not return valid JSON for DOCX content.".toList, 1) :=
  ⟨(generateOptimizedResume_single_repair (fun _ => []) ["x".toList]
      (some (Json.num 3)) none
      ⟨"AI JSON is not a valid replacements format.".toList, rfl⟩).1,
   (generateOptimizedResume_single_repair (fun _ => []) ["x".toList]
      (some (Json.num 3)) none
      ⟨"AI JSON is not a valid replacements format.".toList, rfl⟩).2 _ rfl⟩

/-- `Application` (src/src/types/index.ts lines 46-53); `status` is the status
string (`'draft' | 'applied' | …`). -/
structure Application where
  id : Str
  jobId : Str
  resumeId : Str
  coverLetterId : Option Str
  appliedDate : Int
  status : Str
deriving DecidableEq

/-- The `cloudSync` bookkeeping record (src/src/firebase/sync.ts lines 13-20);
absent keys are `none`. -/
structure CloudSyncState where
  uid : Option Str
  enabled : Option Bool
  lastPushAt : Option Int
  lastPullAt : Option Int
  lastError : Option Str
  lastErrorAt : Option Int
deriving DecidableEq

/-- The `chrome.storage.local` keys the sync layer reads or writes. -/
structure LocalStore where
  resumes : List Resume
  optimizedResumes : List OptimizedResume
  coverLetters : List CoverLetter
  applications : List Application
  jobs : List JobPosting
  cloudSync : CloudSyncState
deriving DecidableEq

/-- The signed-in user's Firestore subtree `users/{uid}/…` (the operations only
ever touch the current user's documents).  Resume documents keep the legacy
chunk fields; the other collections store exactly the pushed record fields, so
the record types double as document types (an optimized-resume document has no
`content` — the push writes it with `content` empty and the pull resets it;
the write-only `updatedAt` server timestamp is not modelled on them). -/
structure CloudStore where
  resumes : List CloudResumeDoc
  optimizedResumes : List OptimizedResume
  coverLetters : List CoverLetter
  applications : List Application
  jobs : List JobPosting
deriving DecidableEq

/-- Local browser storage plus the cloud document store. -/
structure SyncState where
  localStore : LocalStore
  cloud : CloudStore
deriving DecidableEq

/-- `updateCloudSyncState(patch)` (src/src/firebase/sync.ts lines 22-31): read
the previous record, apply the call site's patch `f`, and always refresh
`enabled` from `isFirebaseEnabled()`. -/
def updateCloudSyncState (env : SyncEnv) (f : CloudSyncState → CloudSyncState)
    (s : SyncState) : SyncState :=
  { s with localStore := { s.localStore with cloudSync :=
      { f s.localStore.cloudSync with enabled := some env.firebaseEnabled } } }

/-- `ensureUser` (src/src/firebase/sync.ts lines 37-50): requires a configured
auth object and a signed-in user with a non-empty uid; records the uid in
`cloudSync` and returns it. -/
def ensureUser (env : SyncEnv) (s : SyncState) : SyncState × Except Str Str :=
  if !env.authConfigured then
    (s, Except.error "Firebase is not configured. Add Firebase env vars and rebuild.".toList)
  else
    match env.currentUser with
    | none =>
      (s, Except.error ("Cloud sync requires sign-in. Go to Settings → Cloud Sync " ++
        "Account and sign in (or tap Continue as guest) first.").toList)
    | some uid =>
      if uid.isEmpty then (s, Except.error "Firebase auth failed".toList)
      else
        (updateCloudSyncState env (fun c => { c with uid := some uid }) s, Except.ok uid)

/-- The resume document written by `tryCloudSyncResume` (src/src/firebase/sync.ts
lines 60-76); `x || null` turns falsy (absent or empty-string) optional fields
into `null`. -/
def resumeDocOf (resume : Resume) (now : Int) : CloudResumeDoc :=
  { id := resume.id
    name := resume.name
    parsedText := resume.parsedText
    uploadDate := resume.uploadDate
    isDefault := resume.isDefault
    originalFileUrl := optTruthy resume.originalFileUrl
    originalFileProvider := optTruthy resume.originalFileProvider
    originalFilePublicId := optTruthy resume.originalFilePublicId
    originalFileMimeType := optTruthy resume.originalFileMimeType
    originalFileName := optTruthy resume.originalFileName
    updatedAt := now
    pdfChunkCount := 0
    pdfChunks := [] }

/-- `setDoc(…, {merge: true})` on a resume document: overwrite the written
fields of the document with the same id, preserving its legacy chunk fields;
create the document when absent. -/
def writeResumeDoc : List CloudResumeDoc → CloudResumeDoc → List CloudResumeDoc
  | [], d => [d]
  | e :: rest, d =>
    if e.id == d.id then
      { d with pdfChunkCount := e.pdfChunkCount, pdfChunks := e.pdfChunks } :: rest
    else e :: writeResumeDoc rest d

/-- Error message thrown when Firestore is not configured. -/
def firebaseNotConfiguredMsg : Str :=
  "Firebase is not configured. Add Firebase env vars and rebuild.".toList

/-- `tryCloudSyncResume` (src/src/firebase/sync.ts lines 52-79).  The result's
second component is the thrown error, `none` on normal return. -/
def tryCloudSyncResume (env : SyncEnv) (resume : Resume) (s : SyncState) :
    SyncState × Option Str :=
  if !env.firebaseEnabled then (s, none)
  else if !env.firestoreConfigured then (s, some firebaseNotConfiguredMsg)
  else
    match ensureUser env s with
    | (s1, Except.error e) => (s1, some e)
    | (s1, Except.ok _uid) =>
      let s2 := { s1 with cloud := { s1.cloud with
        resumes := writeResumeDoc s1.cloud.resumes (resumeDocOf resume env.now) } }
      (updateCloudSyncState env
        (fun c => { c with lastPushAt := some env.now, lastError := none }) s2, none)

/-- `tryCloudSyncOptimizedResume` (src/src/firebase/sync.ts lines 81-111); the
document carries every written field, so the merge write is a plain upsert by
id (with `content` empty — it is not among the written fields). -/
def tryCloudSyncOptimizedResume (env : SyncEnv) (optimized : OptimizedResume)
    (s : SyncState) : SyncState × Option Str :=
  if !env.firebaseEnabled then (s, none)
  else if !env.firestoreConfigured then (s, some firebaseNotConfiguredMsg)
  else
    match ensureUser env s with
    | (s1, Except.error e) => (s1, some e)
    | (s1, Except.ok _uid) =>
      let doc := { optimized with
        content := []
        originalFileUrl := optTruthy optimized.originalFileUrl
        originalFileProvider := optTruthy optimized.originalFileProvider
        originalFilePublicId := optTruthy optimized.originalFilePublicId
        originalFileMimeType := optTruthy optimized.originalFileMimeType
        originalFileName := optTruthy optimized.originalFileName }
      let s2 := { s1 with cloud := { s1.cloud with
        optimizedResumes := upsertBy OptimizedResume.id s1.cloud.optimizedResumes doc } }
      (updateCloudSyncState env
        (fun c => { c with lastPushAt := some env.now, lastError := none }) s2, none)

/-- `tryCloudSyncCoverLetter` (src/src/firebase/sync.ts lines 113-134). -/
def tryCloudSyncCoverLetter (env : SyncEnv) (letter : CoverLetter) (s : SyncState) :
    SyncState × Option Str :=
  if !env.firebaseEnabled then (s, none)
  else if !env.firestoreConfigured then (s, some firebaseNotConfiguredMsg)
  else
    match ensureUser env s with
    | (s1, Except.error e) => (s1, some e)
    | (s1, Except.ok _uid) =>
      let s2 := { s1 with cloud := { s1.cloud with
        coverLetters := upsertBy CoverLetter.id s1.cloud.coverLetters letter } }
      (updateCloudSyncState env
        (fun c => { c with lastPushAt := some env.now, lastError := none }) s2, none)

/-- `tryCloudSyncJob` (src/src/firebase/sync.ts lines 136-163); note this one
throws the shorter `'Firebase is not configured.'`. -/
def tryCloudSyncJob (env : SyncEnv) (job : JobPosting) (s : SyncState) :
    SyncState × Option Str :=
  if !env.firebaseEnabled then (s, none)
  else if !env.firestoreConfigured then (s, some "Firebase is not configured.".toList)
  else
    match ensureUser env s with
    | (s1, Except.error e) => (s1, some e)
    | (s1, Except.ok _uid) =>
      let doc := { job with
        location := optTruthy job.location
        salary := optTruthy job.salary
        postedDate := optTruthy job.postedDate
        platform := optTruthy job.platform }
      let s2 := { s1 with cloud := { s1.cloud with
        jobs := upsertBy JobPosting.id s1.cloud.jobs doc } }
      (updateCloudSyncState env
        (fun c => { c with lastPushAt := some env.now, lastError := none }) s2, none)

/-- `tryCloudSyncApplication` (src/src/firebase/sync.ts lines 165-188). -/
def tryCloudSyncApplication (env : SyncEnv) (app : Application) (s : SyncState) :
    SyncState × Option Str :=
  if !env.firebaseEnabled then (s, none)
  else if !env.firestoreConfigured then (s, some firebaseNotConfiguredMsg)
  else
    match ensureUser env s with
    | (s1, Except.error e) => (s1, some e)
    | (s1, Except.ok _uid) =>
      let doc := { app with coverLetterId := optTruthy app.coverLetterId }
      let s2 := { s1 with cloud := { s1.cloud with
        applications := upsertBy Application.id s1.cloud.applications doc } }
      (updateCloudSyncState env
        (fun c => { c with lastPushAt := some env.now, lastError := none }) s2, none)

/-- `tryCloudDeleteOptimizedResume` (src/src/firebase/sync.ts lines 190-198):
with Firestore missing it returns (no throw), and there is no `cloudSync`
bookkeeping. -/
def tryCloudDeleteOptimizedResume (env : SyncEnv) (id : Str) (s : SyncState) :
    SyncState × Option Str :=
  if !env.firebaseEnabled then (s, none)
  else if !env.firestoreConfigured then (s, none)
  else
    match ensureUser env s with
    | (s1, Except.error e) => (s1, some e)
    | (s1, Except.ok _uid) =>
      ({ s1 with cloud := { s1.cloud with
          optimizedResumes := s1.cloud.optimizedResumes.filter (fun o => !(o.id == id)) } },
        none)

/-- `tryCloudDeleteCoverLetter` (src/src/firebase/sync.ts lines 200-208). -/
def tryCloudDeleteCoverLetter (env : SyncEnv) (id : Str) (s : SyncState) :
    SyncState × Option Str :=
  if !env.firebaseEnabled then (s, none)
  else if !env.firestoreConfigured then (s, none)
  else
    match ensureUser env s with
    | (s1, Except.error e) => (s1, some e)
    | (s1, Except.ok _uid) =>
      ({ s1 with cloud := { s1.cloud with
          coverLetters := s1.cloud.coverLetters.filter (fun cl => !(cl.id == id)) } },
        none)

/-- `tryCloudDeleteApplication` (src/src/firebase/sync.ts lines 210-218). -/
def tryCloudDeleteApplication (env : SyncEnv) (id : Str) (s : SyncState) :
    SyncState × Option Str :=
  if !env.firebaseEnabled then (s, none)
  else if !env.firestoreConfigured then (s, none)
  else
    match ensureUser env s with
    | (s1, Except.error e) => (s1, some e)
    | (s1, Except.ok _uid) =>
      ({ s1 with cloud := { s1.cloud with
          applications := s1.cloud.applications.filter (fun a => !(a.id == id)) } },
        none)

/-- Cloud optimized-resume document to local record (src/src/firebase/sync.ts
lines 293-311): falsy-guarded coercions; `content` is reset to empty. -/
def cloudOptimizedToLocal (env : SyncEnv) (o : OptimizedResume) : OptimizedResume :=
  { id := o.id
    name := if o.name = [] then "Optimized Resume".toList else o.name
    content := []
    parsedText := o.parsedText
    uploadDate := if o.uploadDate = 0 then env.now else o.uploadDate
    isDefault := o.isDefault
    originalFileUrl := optTruthy o.originalFileUrl
    originalFileProvider := (optTruthy o.originalFileProvider).map
      (fun _ => "cloudinary".toList)
    originalFilePublicId := optTruthy o.originalFilePublicId
    originalFileMimeType := optTruthy o.originalFileMimeType
    originalFileName := optTruthy o.originalFileName
    originalResumeId := o.originalResumeId
    jobId := o.jobId
    modifications := o.modifications }

/-- Cloud cover-letter document to local record (src/src/firebase/sync.ts
lines 313-321). -/
def cloudLetterToLocal (env : SyncEnv) (cl : CoverLetter) : CoverLetter :=
  { id := cl.id
    jobId := cl.jobId
    content := cl.content
    createdDate := if cl.createdDate = 0 then env.now else cl.createdDate }

/-- Cloud application document to local record (src/src/firebase/sync.ts
lines 323-333). -/
def cloudAppToLocal (env : SyncEnv) (a : Application) : Application :=
  { id := a.id
    jobId := a.jobId
    resumeId := a.resumeId
    coverLetterId := optTruthy a.coverLetterId
    appliedDate := if a.appliedDate = 0 then env.now else a.appliedDate
    status := if a.status = [] then "draft".toList else a.status }

/-- Cloud job document to local record (src/src/firebase/sync.ts lines
335-349). -/
def cloudJobToLocal (env : SyncEnv) (j : JobPosting) : JobPosting :=
  { id := j.id
    title := j.title
    company := j.company
    description := j.description
    url := j.url
    extractedDate := if j.extractedDate = 0 then env.now else j.extractedDate
    location := optTruthy j.location
    salary := optTruthy j.salary
    postedDate := optTruthy j.postedDate
    platform := optTruthy j.platform }

/-- `tryCloudPullAllToLocal` (src/src/firebase/sync.ts lines 220-363): with
Firebase enabled and Firestore configured, `ensureUser` (an error here is
recorded in `cloudSync` and rethrown), merge every cloud collection into the
local lists by id, enforce the single default resume, write all five lists and
stamp `lastPullAt`. -/
def tryCloudPullAllToLocal (env : SyncEnv) (s : SyncState) : SyncState × Option Str :=
  if !env.firebaseEnabled then (s, none)
  else if !env.firestoreConfigured then (s, some firebaseNotConfiguredMsg)
  else
    match ensureUser env s with
    | (s1, Except.error e) =>
      (updateCloudSyncState env
        (fun c => { c with lastError := some e, lastErrorAt := some env.now }) s1, some e)
    | (s1, Except.ok _uid) =>
      let L := s1.localStore
      let resumes := enforceOneDefault (mergeCloudResumes env L.resumes s1.cloud.resumes)
      let optimizedResumes := s1.cloud.optimizedResumes.foldl
        (fun acc o => upsertBy OptimizedResume.id acc (cloudOptimizedToLocal env o))
        L.optimizedResumes
      let coverLetters := s1.cloud.coverLetters.foldl
        (fun acc cl => upsertBy CoverLetter.id acc (cloudLetterToLocal env cl))
        L.coverLetters
      let applications := s1.cloud.applications.foldl
        (fun acc a => upsertBy Application.id acc (cloudAppToLocal env a)) L.applications
      let jobs := s1.cloud.jobs.foldl
        (fun acc j => upsertBy JobPosting.id acc (cloudJobToLocal env j)) L.jobs
      (updateCloudSyncState env
        (fun c => { c with lastPullAt := some env.now, lastError := none })
        { s1 with localStore := { L with
            resumes := resumes
            optimizedResumes := optimizedResumes
            coverLetters := coverLetters
            applications := applications
            jobs := jobs } },
        none)

/-- Sequential `for … await` over one collection: stop at the first thrown
error. -/
def runSeq {α : Type} (f : α → SyncState → SyncState × Option Str) :
    List α → SyncState → SyncState × Option Str
  | [], s => (s, none)
  | x :: rest, s =>
    match f x s with
    | (s1, none) => runSeq f rest s1
    | (s1, some e) => (s1, some e)

/-- `tryCloudPushAllFromLocal` (src/src/firebase/sync.ts lines 365-390):
`ensureUser`, then push every local record sequentially through the
single-record sync functions, then stamp `lastPushAt`; any thrown error is
recorded in `cloudSync` and rethrown. -/
def tryCloudPushAllFromLocal (env : SyncEnv) (s : SyncState) : SyncState × Option Str :=
  if !env.firebaseEnabled then (s, none)
  else
    match ensureUser env s with
    | (s1, Except.error e) =>
      (updateCloudSyncState env
        (fun c => { c with lastError := some e, lastErrorAt := some env.now }) s1, some e)
    | (s1, Except.ok _uid) =>
      let L := s1.localStore
      match runSeq (tryCloudSyncResume env) L.resumes s1 with
      | (s2, some e) =>
        (updateCloudSyncState env
          (fun c => { c with lastError := some e, lastErrorAt := some env.now }) s2, some e)
      | (s2, none) =>
        match runSeq (tryCloudSyncOptimizedResume env) L.optimizedResumes s2 with
        | (s3, some e) =>
          (updateCloudSyncState env
            (fun c => { c with lastError := some e, lastErrorAt := some env.now }) s3, some e)
        | (s3, none) =>
          match runSeq (tryCloudSyncCoverLetter env) L.coverLetters s3 with
          | (s4, some e) =>
            (updateCloudSyncState env
              (fun c => { c with lastError := some e, lastErrorAt := some env.now }) s4, some e)
          | (s4, none) =>
            match runSeq (tryCloudSyncApplication env) L.applications s4 with
            | (s5, some e) =>
              (updateCloudSyncState env
                (fun c => { c with lastError := some e, lastErrorAt := some env.now }) s5, some e)
            | (s5, none) =>
              match runSeq (tryCloudSyncJob env) L.jobs s5 with
              | (s6, some e) =>
                (updateCloudSyncState env
                  (fun c => { c with lastError := some e, lastErrorAt := some env.now }) s6,
                  some e)
              | (s6, none) =>
                (updateCloudSyncState env
                  (fun c => { c with lastPushAt := some env.now, lastError := none }) s6,
                  none)

/-- C6: cloud sync is optional: whenever Firebase is not enabled, every cloud
push operation, cloud delete operation, the pull-all and the push-all return
immediately without raising an error and without modifying local storage or the
cloud store. -/
theorem cloud_sync_optional (env : SyncEnv) (henv : env.firebaseEnabled = false)
    (s : SyncState) (resume : Resume) (optimized : OptimizedResume)
    (letter : CoverLetter) (job : JobPosting) (app : Application) (id : Str) :
    tryCloudSyncResume env resume s = (s, none) ∧
    tryCloudSyncOptimizedResume env optimized s = (s, none) ∧
    tryCloudSyncCoverLetter env letter s = (s, none) ∧
    tryCloudSyncJob env job s = (s, none) ∧
    tryCloudSyncApplication env app s = (s, none) ∧
    tryCloudDeleteOptimizedResume env id s = (s, none) ∧
    tryCloudDeleteCoverLetter env id s = (s, none) ∧
    tryCloudDeleteApplication env id s = (s, none) ∧
    tryCloudPullAllToLocal env s = (s, none) ∧
    tryCloudPushAllFromLocal env s = (s, none) := by
  refine ⟨?_, ?_, ?_, ?_, ?_, ?_, ?_, ?_, ?_, ?_⟩ <;>
    simp [tryCloudSyncResume, tryCloudSyncOptimizedResume, tryCloudSyncCoverLetter,
      tryCloudSyncJob, tryCloudSyncApplication, tryCloudDeleteOptimizedResume,
      tryCloudDeleteCoverLetter, tryCloudDeleteApplication, tryCloudPullAllToLocal,
      tryCloudPushAllFromLocal, henv]

/-- A sync environment with Firebase disabled (everything else available). -/
def envW : SyncEnv := ⟨false, true, true, some "u1".toList, 42⟩

/-- A sync state with one record in every local list and an id-less cloud. -/
def syncStateW : SyncState :=
  ⟨⟨[resumeW1], [orW], [⟨"cl1".toList, "j".toList, "Dear team".toList, 8⟩],
    [⟨"a1".toList, "j".toList, "r1".toList, none, 9, "draft".toList⟩], [jobW1],
    ⟨none, none, none, none, none, none⟩⟩,
   ⟨[], [], [], [], []⟩⟩

/-- A cover letter for the witness. -/
def letterW : CoverLetter := ⟨"cl2".toList, "j2".toList, "Hello".toList, 10⟩

/-- An application for the witness. -/
def appW : Application :=
  ⟨"a2".toList, "j2".toList, "r2".toList, some "cl2".toList, 11, "applied".toList⟩

/-- Witness for C6: with Firebase disabled, pull-all, push-all and a
representative push leave the concrete state untouched and raise no error. -/
theorem cloud_sync_optional_witness :
    tryCloudPullAllToLocal envW syncStateW = (syncStateW, none) ∧
      tryCloudPushAllFromLocal envW syncStateW = (syncStateW, none) ∧
      tryCloudSyncResume envW resumeW2 syncStateW = (syncStateW, none) :=
  ⟨(cloud_sync_optional envW rfl syncStateW resumeW2 orW letterW jobW2 appW
      "x".toList).2.2.2.2.2.2.2.2.1,
   (cloud_sync_optional envW rfl syncStateW resumeW2 orW letterW jobW2 appW
      "x".toList).2.2.2.2.2.2.2.2.2,
   (cloud_sync_optional envW rfl syncStateW resumeW2 orW letterW jobW2 appW
      "x".toList).1⟩
